import Mathlib

/-!
# QEMU EDU driver: register protocol of `src/edu_test/edu.c`

The driver talks to the device through 32-bit register accesses
(`ioread32` / `iowrite32`) and sleeps on one wait queue that the interrupt
handler wakes.  The embedding below keeps the C control flow and makes the
surroundings explicit:

* every call returns a `Run`: the value returned (or `none` while the caller
  is still asleep), the list of accesses the *calling task* issued, in program
  order, and the `edu_device` structure afterwards;
* what the hardware answers to a register read, whether a signal is pending
  and which interrupts arrive are inputs of the call (`first`, `Wake`,
  `Sleep`, `Platform`);
* `u32` values are naturals, truncated with `% 2 ^ 32` where the C code casts;
* `edu_log` / `pr_warn` / `pr_info` lines only print and are left out.

`EDU_DMA_BUF_SIZE` comes from `edu.h`, which is not part of the sources; it is
a parameter of the two functions that use it.
-/

namespace Edu

/-! ## Constants (edu.c, lines 19-38) and kernel return codes -/

def EDU_DMA_BUF_DEVICE_OFFSET : Nat := 0x40000
def EDU_DMA_CMD_START_XFER : Nat := 1
def EDU_DMA_CMD_RAM_TO_DEVICE : Nat := 0
def EDU_DMA_CMD_DEVICE_TO_RAM : Nat := 2
def EDU_DMA_CMD_RAISE_IRQ : Nat := 4
def EDU_STATUS_COMPUTING : Nat := 0x01
def EDU_STATUS_RAISE_IRQ : Nat := 0x80

def EDU_ADDR_IDENT : Nat := 0x0
def EDU_ADDR_LIVENESS : Nat := 0x04
def EDU_ADDR_FACTORIAL : Nat := 0x08
def EDU_ADDR_STATUS : Nat := 0x20
def EDU_ADDR_IRQ_STATUS : Nat := 0x24
def EDU_ADDR_IRQ_RAISE : Nat := 0x60
def EDU_ADDR_IRQ_ACK : Nat := 0x64
def EDU_ADDR_DMA_SRC : Nat := 0x80
def EDU_ADDR_DMA_DST : Nat := 0x88
def EDU_ADDR_DMA_XFER : Nat := 0x90
def EDU_ADDR_DMA_CMD : Nat := 0x98

def EFAULT : Int := 14
def EINVAL : Int := 22
def EOPNOTSUPP : Int := 95
def ERESTARTSYS : Int := 512

/-- Value of `IRQ_HANDLED` in `enum irqreturn`. -/
def IRQ_HANDLED : Nat := 1

/-! ## Data model -/

/-- The fields of `struct edu_device` (edu.c, lines 57-67).  `cdev` and
`irq_wait_queue` are kernel objects; the wait queue is represented by the wake
schedule handed to the sleeping functions.  A null `dma_virt_addr` is `0`. -/
structure edu_device where
  registered_irq_handler : Bool
  added_cdev : Bool
  iomem : Nat
  irq : Nat
  irq_value : Nat
  dma_bus_addr : Nat
  dma_virt_addr : Nat
deriving DecidableEq, Repr

/-- The externally visible actions of the driver code. -/
inductive Event where
  /-- `ioread32(dev->iomem + addr)` returned `val`. -/
  | ioread32 (addr val : Nat)
  /-- `iowrite32(val, dev->iomem + addr)`. -/
  | iowrite32 (val addr : Nat)
  /-- `dev->irq_value = val`. -/
  | store_irq_value (val : Nat)
  /-- `wake_up_interruptible(&dev->irq_wait_queue)`. -/
  | wake_up_interruptible
  /-- `put_user(val, arg)`. -/
  | put_user (val : Nat)
  /-- `vm_iomap_memory(vma, start, len)`. -/
  | vm_iomap_memory (start len : Nat)
  /-- `dmam_alloc_coherent(&pdev->dev, size, &edu_dev->dma_bus_addr, GFP_KERNEL)`. -/
  | dmam_alloc_coherent (size : Nat)
  /-- `cdev_del(&edu_dev->cdev)`. -/
  | cdev_del
  /-- `free_irq(irq, edu_dev)`. -/
  | free_irq (irq : Nat)
  /-- `pci_free_irq_vectors(pdev)`. -/
  | pci_free_irq_vectors
deriving DecidableEq, Repr

/-- Result of running one driver entry point. -/
structure Run where
  /-- The C return value; `none` when the caller has not returned because it is
  still asleep at the end of the wake schedule. -/
  ret : Option Int
  /-- Accesses issued by the calling task, oldest first. -/
  trace : List Event
  /-- The device structure afterwards. -/
  dev : edu_device
deriving DecidableEq, Repr

/-- What a task that slept in `schedule()` finds once it runs again: the
`IRQ_STATUS` values that `edu_irq_handler` calls stored into `irq_value` since
the task put itself on the wait queue (oldest first), and the answer of
`signal_pending(current)`.  `irqs` is empty when the task was made runnable by
something else than a new capture: a signal, a wake-up that does not come from
the handler, or, on another CPU, the `wake_up_interruptible` of a handler call
whose store into `irq_value` came before the task queued itself. -/
structure Sleep where
  irqs : List Nat
  signal : Bool
deriving DecidableEq, Repr

/-- One pass of the loop inside `wait_event_interruptible`: the interrupts and
signal state seen by `prepare_to_wait_event`, and the value the device returns
to the read made by the condition. -/
structure Wake extends Sleep where
  reg : Nat
deriving DecidableEq, Repr

/-! ## Interrupt handler (edu.c, lines 249-263) -/

/-- The function `edu_irq_handler`; `status` is the value the device returns for
`IRQ_STATUS`.  Returns the device structure, the handler's accesses and the
handler's return value. -/
def edu_irq_handler (dev : edu_device) (status : Nat) : edu_device × List Event × Nat :=
  let irq_value := status
  ({ dev with irq_value := irq_value },
   [Event.ioread32 EDU_ADDR_IRQ_STATUS irq_value,
    Event.iowrite32 irq_value EDU_ADDR_IRQ_ACK,
    Event.store_irq_value irq_value,
    Event.wake_up_interruptible],
   IRQ_HANDLED)

/-- The device structure after the handler ran once for each value of `irqs`. -/
def run_irqs (dev : edu_device) (irqs : List Nat) : edu_device :=
  irqs.foldl (fun d v => (edu_irq_handler d v).1) dev

/-! ## Blocking wait (`wait_event_interruptible` of `linux/wait.h`) -/

/-- The loop of `___wait_event` for an interruptible sleep whose condition is
"register `addr` is not busy".  Each pass: `prepare_to_wait_event` reports a
pending signal, the condition is evaluated (one register read), a true
condition leaves the loop with 0, otherwise a pending signal leaves it with
`-ERESTARTSYS`, otherwise `schedule()` sleeps until the next wake.  The first
element of `wakes` is the first pass, which needs no wake; when `wakes` is used
up the task stays asleep. -/
def wait_loop (addr : Nat) (busy : Nat → Bool) : edu_device → List Wake → Run
  | dev, [] => ⟨none, [], dev⟩
  | dev, w :: ws =>
    let dev1 := run_irqs dev w.irqs
    let int : Int := if w.signal then -ERESTARTSYS else 0
    if !busy w.reg then
      ⟨some 0, [Event.ioread32 addr w.reg], dev1⟩
    else if int ≠ 0 then
      ⟨some int, [Event.ioread32 addr w.reg], dev1⟩
    else
      let r := wait_loop addr busy dev1 ws
      ⟨r.ret, Event.ioread32 addr w.reg :: r.trace, r.dev⟩

/-- The macro `wait_event_interruptible(wq, !busy)`: the condition is tested
once before anything else (`first` is what that read returns) and the loop is
entered only when it is false. -/
def wait_event_interruptible (addr : Nat) (busy : Nat → Bool) (dev : edu_device)
    (first : Nat) (wakes : List Wake) : Run :=
  if !busy first then
    ⟨some 0, [Event.ioread32 addr first], dev⟩
  else
    let r := wait_loop addr busy dev wakes
    ⟨r.ret, Event.ioread32 addr first :: r.trace, r.dev⟩

/-! ## Factorial (edu.c, lines 121-144) -/

/-- The test made by `is_computing_factorial` on the value read from `STATUS`. -/
def is_computing_factorial (status : Nat) : Bool :=
  status &&& EDU_STATUS_COMPUTING != 0

/-- The function `ioctl_factorial`.  `arg` is the result of `get_user` (`none`
when it faults), `first` and `wakes` drive the wait, `result` is what the
device returns for the final read of `FACTORIAL`, `put_ret` is the return value
of `put_user`. -/
def ioctl_factorial (dev : edu_device) (arg : Option Nat) (first : Nat) (wakes : List Wake)
    (result : Nat) (put_ret : Int) : Run :=
  match arg with
  | none => ⟨some (-EFAULT), [], dev⟩
  | some val =>
    let pre := [Event.iowrite32 EDU_STATUS_RAISE_IRQ EDU_ADDR_STATUS,
                Event.iowrite32 val EDU_ADDR_FACTORIAL]
    let w := wait_event_interruptible EDU_ADDR_STATUS is_computing_factorial dev first wakes
    match w.ret with
    | none => ⟨none, pre ++ w.trace, w.dev⟩
    | some r =>
      if r ≠ 0 then
        ⟨some (-ERESTARTSYS), pre ++ w.trace, w.dev⟩
      else
        ⟨some put_ret,
          pre ++ w.trace ++ [Event.ioread32 EDU_ADDR_FACTORIAL result, Event.put_user result],
          w.dev⟩

/-! ## Wait for an interrupt (edu.c, lines 146-156) -/

/-- The function `ioctl_wait_irq`: `prepare_to_wait`, one `schedule()`,
`finish_wait`, then the signal test and `put_user(dev->irq_value, arg)`.
`wake` is `none` when `schedule()` never returns; otherwise it describes what
happened between `prepare_to_wait` and the read of `dev->irq_value`.  No
condition is tested after the wake. -/
def ioctl_wait_irq (dev : edu_device) (wake : Option Sleep) (put_ret : Int) : Run :=
  match wake with
  | none => ⟨none, [], dev⟩
  | some s =>
    let dev1 := run_irqs dev s.irqs
    if s.signal then
      ⟨some (-ERESTARTSYS), [], dev1⟩
    else
      ⟨some put_ret, [Event.put_user dev1.irq_value], dev1⟩

/-! ## DMA (edu.c, lines 164-209) -/

/-- The test made by `is_doing_dma` on the value read from `DMA_CMD`. -/
def is_doing_dma (cmd : Nat) : Bool :=
  cmd &&& EDU_DMA_CMD_START_XFER != 0

/-- The function `do_dma`.  `len` is the `u32` length, `first` and `wakes`
drive the wait on `DMA_CMD`. -/
def do_dma (EDU_DMA_BUF_SIZE : Nat) (dev : edu_device) (len : Nat) (to_device : Bool)
    (first : Nat) (wakes : List Wake) : Run :=
  if len = 0 ∨ len > EDU_DMA_BUF_SIZE then
    ⟨some (-EINVAL), [], dev⟩
  else if dev.dma_bus_addr > 2 ^ 32 - 1 then
    ⟨some (-EOPNOTSUPP), [], dev⟩
  else
    let src := if to_device then dev.dma_bus_addr % 2 ^ 32 else EDU_DMA_BUF_DEVICE_OFFSET
    let dst := if to_device then EDU_DMA_BUF_DEVICE_OFFSET else dev.dma_bus_addr % 2 ^ 32
    let cmd :=
      if to_device then
        EDU_DMA_CMD_START_XFER ||| EDU_DMA_CMD_RAM_TO_DEVICE ||| EDU_DMA_CMD_RAISE_IRQ
      else
        EDU_DMA_CMD_START_XFER ||| EDU_DMA_CMD_DEVICE_TO_RAM ||| EDU_DMA_CMD_RAISE_IRQ
    let pre := [Event.iowrite32 src EDU_ADDR_DMA_SRC,
                Event.iowrite32 dst EDU_ADDR_DMA_DST,
                Event.iowrite32 len EDU_ADDR_DMA_XFER,
                Event.iowrite32 cmd EDU_ADDR_DMA_CMD]
    let w := wait_event_interruptible EDU_ADDR_DMA_CMD is_doing_dma dev first wakes
    match w.ret with
    | none => ⟨none, pre ++ w.trace, w.dev⟩
    | some r =>
      if r ≠ 0 then
        ⟨some (-ERESTARTSYS), pre ++ w.trace, w.dev⟩
      else
        ⟨some 0, pre ++ w.trace, w.dev⟩

/-- The function `ioctl_dma_to_device`; `arg` is the `unsigned long` argument
of the ioctl, cast to `u32`. -/
def ioctl_dma_to_device (EDU_DMA_BUF_SIZE : Nat) (dev : edu_device) (arg : Nat)
    (first : Nat) (wakes : List Wake) : Run :=
  do_dma EDU_DMA_BUF_SIZE dev (arg % 2 ^ 32) true first wakes

/-- The function `ioctl_dma_from_device`. -/
def ioctl_dma_from_device (EDU_DMA_BUF_SIZE : Nat) (dev : edu_device) (arg : Nat)
    (first : Nat) (wakes : List Wake) : Run :=
  do_dma EDU_DMA_BUF_SIZE dev (arg % 2 ^ 32) false first wakes

/-! ## Buffer mapping (edu.c, lines 88-102) -/

/-- The C expression `vma->vm_end - vma->vm_start` in `unsigned long` (64 bits). -/
def vma_len (vm_start vm_end : Nat) : Nat :=
  (vm_end % 2 ^ 64 + 2 ^ 64 - vm_start % 2 ^ 64) % 2 ^ 64

/-- The function `edu_mmap`.  `__pa` is the kernel's virtual-to-physical
translation and `iomap_ret` the return value of `vm_iomap_memory`. -/
def edu_mmap (EDU_DMA_BUF_SIZE : Nat) (__pa : Nat → Nat) (dev : edu_device)
    (vm_start vm_end vm_pgoff : Nat) (iomap_ret : Int) : Run :=
  let len := vma_len vm_start vm_end
  if len > EDU_DMA_BUF_SIZE then
    ⟨some (-EINVAL), [], dev⟩
  else if vm_pgoff ≠ 0 then
    ⟨some (-EINVAL), [], dev⟩
  else
    ⟨some iomap_ret, [Event.vm_iomap_memory (__pa dev.dma_virt_addr) len], dev⟩

/-! ## Attach (edu.c, lines 265-356) -/

/-- The reads of register `addr` made for the passes `ws`. -/
def polls (addr : Nat) (ws : List Wake) : List Event :=
  ws.map (fun w => Event.ioread32 addr w.reg)

/-- The condition evaluations offered to a wait: the test made before the
loop, which looks at no signal, followed by the passes of the loop. -/
def evaluations (first : Nat) (wakes : List Wake) : List Wake :=
  { irqs := [], signal := false, reg := first } :: wakes

/-- The wait ends without cancellation: the evaluations `earlier` all read the
busy bit set with no signal pending, and the next one, `last`, reads it clear. -/
def Completes (busy : Nat → Bool) (first : Nat) (wakes earlier : List Wake) (last : Wake) :
    Prop :=
  (∃ post, evaluations first wakes = earlier ++ last :: post) ∧
    (∀ b ∈ earlier, busy b.reg = true ∧ b.signal = false) ∧ busy last.reg = false

/-- The wait is cancelled: the evaluations `earlier` all read the busy bit set
with no signal pending, and the next one, `last`, reads it set with a signal
pending. -/
def Cancelled (busy : Nat → Bool) (first : Nat) (wakes earlier : List Wake) (last : Wake) :
    Prop :=
  (∃ post, evaluations first wakes = earlier ++ last :: post) ∧
    (∀ b ∈ earlier, busy b.reg = true ∧ b.signal = false) ∧
    busy last.reg = true ∧ last.signal = true

/-! ## Sample inputs -/

/-- A freshly initialised device structure with a DMA buffer at bus address
`0x1000`. -/
def sample_dev : edu_device :=
  { registered_irq_handler := true, added_cdev := true, iomem := 0xfea00000, irq := 11,
    irq_value := 0, dma_bus_addr := 0x1000, dma_virt_addr := 0x2000 }

/-- A DMA wait: `DMA_CMD` reads 5 (transfer running) at the first test and at
the first pass, then the completion interrupt (status `0x100`) wakes the caller
and `DMA_CMD` reads 4. -/
def dma_wakes : List Wake :=
  [{ irqs := [], signal := false, reg := 5 }, { irqs := [0x100], signal := false, reg := 4 }]

/-- A factorial wait: `STATUS` reads `0x81` (computing) at the first pass, then
the completion interrupt (status 1) wakes the caller and `STATUS` reads `0x80`. -/
def factorial_wakes : List Wake :=
  [{ irqs := [], signal := false, reg := 0x81 }, { irqs := [1], signal := false, reg := 0x80 }]

/-- A wait that a signal cuts short: the register reads busy (`0x81`) at the
first pass and again when the signal wakes the caller. -/
def signal_wakes : List Wake :=
  [{ irqs := [], signal := false, reg := 0x81 }, { irqs := [], signal := true, reg := 0x81 }]

/-! ## The wait loop -/

theorem polls_append (addr : Nat) (xs ys : List Wake) :
    polls addr (xs ++ ys) = polls addr xs ++ polls addr ys := by
  simp [polls]

theorem wait_loop_completes (addr : Nat) (busy : Nat → Bool) (w : Wake) (post : List Wake)
    (hw : busy w.reg = false) :
    ∀ (pre : List Wake) (dev : edu_device),
      (∀ b ∈ pre, busy b.reg = true ∧ b.signal = false) →
      (wait_loop addr busy dev (pre ++ w :: post)).ret = some 0 ∧
      (wait_loop addr busy dev (pre ++ w :: post)).trace = polls addr (pre ++ [w]) := by
  intro pre
  induction pre with
  | nil =>
    intro dev _
    simp [wait_loop, hw, polls]
  | cons b bs ih =>
    intro dev h
    have hb := h b (List.mem_cons_self b bs)
    have ih1 := ih (run_irqs dev b.irqs) (fun x hx => h x (List.mem_cons_of_mem b hx))
    simp [wait_loop, hb.1, hb.2, ih1.1, ih1.2, polls]

theorem wait_loop_cancelled (addr : Nat) (busy : Nat → Bool) (w : Wake) (post : List Wake)
    (hw : busy w.reg = true) (hs : w.signal = true) :
    ∀ (pre : List Wake) (dev : edu_device),
      (∀ b ∈ pre, busy b.reg = true ∧ b.signal = false) →
      (wait_loop addr busy dev (pre ++ w :: post)).ret = some (-ERESTARTSYS) ∧
      (wait_loop addr busy dev (pre ++ w :: post)).trace = polls addr (pre ++ [w]) := by
  intro pre
  induction pre with
  | nil =>
    intro dev _
    simp [wait_loop, hw, hs, polls, ERESTARTSYS]
  | cons b bs ih =>
    intro dev h
    have hb := h b (List.mem_cons_self b bs)
    have ih1 := ih (run_irqs dev b.irqs) (fun x hx => h x (List.mem_cons_of_mem b hx))
    simp [wait_loop, hb.1, hb.2, ih1.1, ih1.2, polls]

/-- The loop reads the register once per pass it goes through, and it goes
through every pass of the schedule when it ends asleep. -/
theorem wait_loop_reads (addr : Nat) (busy : Nat → Bool) :
    ∀ (ws : List Wake) (dev : edu_device),
      ∃ k, k ≤ ws.length ∧
        (wait_loop addr busy dev ws).trace = polls addr (ws.take k) ∧
        ((wait_loop addr busy dev ws).ret = none → k = ws.length) := by
  intro ws
  induction ws with
  | nil =>
    intro dev
    exact ⟨0, by simp [wait_loop, polls]⟩
  | cons w ws ih =>
    intro dev
    by_cases hb : busy w.reg = true
    · by_cases hs : w.signal = true
      · exact ⟨1, by simp [wait_loop, hb, hs, polls, ERESTARTSYS]⟩
      · obtain ⟨k, hk, ht, hn⟩ := ih (run_irqs dev w.irqs)
        refine ⟨k + 1, by simpa using hk, ?_, ?_⟩
        · simp [wait_loop, hb, hs, ht, polls]
        · simpa [wait_loop, hb, hs] using hn
    · exact ⟨1, by simp [wait_loop, hb, polls]⟩

theorem run_irqs_nil (dev : edu_device) : run_irqs dev [] = dev := rfl

theorem wait_event_eq_loop (addr : Nat) (busy : Nat → Bool) (dev : edu_device) (first : Nat)
    (wakes : List Wake) :
    wait_event_interruptible addr busy dev first wakes =
      wait_loop addr busy dev (evaluations first wakes) := by
  by_cases hb : busy first = true <;>
    simp [wait_event_interruptible, evaluations, wait_loop, hb, run_irqs_nil]

theorem wait_event_completes (addr : Nat) (busy : Nat → Bool) (dev : edu_device) (first : Nat)
    (wakes earlier : List Wake) (last : Wake) (h : Completes busy first wakes earlier last) :
    (wait_event_interruptible addr busy dev first wakes).ret = some 0 ∧
    (wait_event_interruptible addr busy dev first wakes).trace =
      polls addr (earlier ++ [last]) := by
  obtain ⟨⟨post, hpost⟩, hearlier, hlast⟩ := h
  rw [wait_event_eq_loop, hpost]
  exact wait_loop_completes addr busy last post hlast earlier dev hearlier

theorem wait_event_cancelled (addr : Nat) (busy : Nat → Bool) (dev : edu_device) (first : Nat)
    (wakes earlier : List Wake) (last : Wake) (h : Cancelled busy first wakes earlier last) :
    (wait_event_interruptible addr busy dev first wakes).ret = some (-ERESTARTSYS) ∧
    (wait_event_interruptible addr busy dev first wakes).trace =
      polls addr (earlier ++ [last]) := by
  obtain ⟨⟨post, hpost⟩, hearlier, hlast, hsig⟩ := h
  rw [wait_event_eq_loop, hpost]
  exact wait_loop_cancelled addr busy last post hlast hsig earlier dev hearlier

/-- The wait reads the register at its first test and once per pass; it went
through every pass when it ends asleep. -/
theorem wait_event_reads (addr : Nat) (busy : Nat → Bool) (dev : edu_device) (first : Nat)
    (wakes : List Wake) :
    ∃ k, k ≤ wakes.length ∧
      (wait_event_interruptible addr busy dev first wakes).trace =
        Event.ioread32 addr first :: polls addr (wakes.take k) ∧
      ((wait_event_interruptible addr busy dev first wakes).ret = none → k = wakes.length) := by
  by_cases hb : busy first = true
  · obtain ⟨k, hk, ht, hn⟩ := wait_loop_reads addr busy wakes dev
    exact ⟨k, hk, by simp [wait_event_interruptible, hb, ht],
      by simpa [wait_event_interruptible, hb] using hn⟩
  · exact ⟨0, by simp [wait_event_interruptible, hb, polls]⟩

theorem do_dma_valid (cap : Nat) (dev : edu_device) (len : Nat) (to_device : Bool)
    (first : Nat) (wakes : List Wake) (h0 : 0 < len) (hcap : len ≤ cap)
    (hbus : dev.dma_bus_addr < 2 ^ 32) :
    (do_dma cap dev len to_device first wakes).ret =
      ((wait_event_interruptible EDU_ADDR_DMA_CMD is_doing_dma dev first wakes).ret.map
        (fun r => if r ≠ 0 then -ERESTARTSYS else 0)) ∧
    (do_dma cap dev len to_device first wakes).trace =
      [Event.iowrite32 (if to_device then dev.dma_bus_addr else 0x40000) 0x80,
       Event.iowrite32 (if to_device then 0x40000 else dev.dma_bus_addr) 0x88,
       Event.iowrite32 len 0x90,
       Event.iowrite32 (if to_device then 5 else 7) 0x98] ++
      (wait_event_interruptible EDU_ADDR_DMA_CMD is_doing_dma dev first wakes).trace := by
  have h1 : ¬ (len = 0 ∨ len > cap) := by omega
  have h2 : ¬ (dev.dma_bus_addr > 2 ^ 32 - 1) := by omega
  have h4 : dev.dma_bus_addr < 4294967296 := by omega
  unfold do_dma
  rw [if_neg h1, if_neg h2]
  generalize wait_event_interruptible EDU_ADDR_DMA_CMD is_doing_dma dev first wakes = w
  obtain ⟨ret, tr, d⟩ := w
  cases ret with
  | none =>
    cases to_device <;>
      simp [h4, EDU_DMA_BUF_DEVICE_OFFSET, EDU_ADDR_DMA_SRC, EDU_ADDR_DMA_DST,
        EDU_ADDR_DMA_XFER, EDU_ADDR_DMA_CMD, EDU_DMA_CMD_START_XFER, EDU_DMA_CMD_RAM_TO_DEVICE,
        EDU_DMA_CMD_DEVICE_TO_RAM, EDU_DMA_CMD_RAISE_IRQ]
  | some r =>
    by_cases hz : r = 0 <;> cases to_device <;>
      simp [hz, h4, EDU_DMA_BUF_DEVICE_OFFSET, EDU_ADDR_DMA_SRC, EDU_ADDR_DMA_DST,
        EDU_ADDR_DMA_XFER, EDU_ADDR_DMA_CMD, EDU_DMA_CMD_START_XFER, EDU_DMA_CMD_RAM_TO_DEVICE,
        EDU_DMA_CMD_DEVICE_TO_RAM, EDU_DMA_CMD_RAISE_IRQ]

theorem ioctl_factorial_run (dev : edu_device) (n first : Nat) (wakes : List Wake)
    (result : Nat) (put_ret : Int) :
    (ioctl_factorial dev (some n) first wakes result put_ret).ret =
      ((wait_event_interruptible EDU_ADDR_STATUS is_computing_factorial dev first wakes).ret.map
        (fun r => if r ≠ 0 then -ERESTARTSYS else put_ret)) ∧
    (ioctl_factorial dev (some n) first wakes result put_ret).trace =
      [Event.iowrite32 0x80 0x20, Event.iowrite32 n 0x08] ++
      (wait_event_interruptible EDU_ADDR_STATUS is_computing_factorial dev first wakes).trace ++
      (if (wait_event_interruptible EDU_ADDR_STATUS is_computing_factorial dev first wakes).ret
            = some 0
        then [Event.ioread32 0x08 result, Event.put_user result] else []) := by
  unfold ioctl_factorial
  generalize wait_event_interruptible EDU_ADDR_STATUS is_computing_factorial dev first wakes = w
  obtain ⟨ret, tr, d⟩ := w
  cases ret with
  | none => simp [EDU_STATUS_RAISE_IRQ, EDU_ADDR_STATUS, EDU_ADDR_FACTORIAL]
  | some r =>
    by_cases hz : r = 0 <;>
      simp [hz, EDU_STATUS_RAISE_IRQ, EDU_ADDR_STATUS, EDU_ADDR_FACTORIAL]

theorem polls_not_write (addr : Nat) (ws : List Wake) :
    ∀ e ∈ polls addr ws, ∀ v a, e ≠ Event.iowrite32 v a := by
  intro e he v a
  simp only [polls, List.mem_map] at he
  obtain ⟨w, _, rfl⟩ := he
  simp

theorem is_computing_factorial_false (v : Nat) :
    is_computing_factorial v = false ↔ v &&& 0x01 = 0 := by
  simp [is_computing_factorial, EDU_STATUS_COMPUTING]

theorem run_irqs_irq_value (irqs : List Nat) :
    ∀ dev : edu_device, (run_irqs dev irqs).irq_value = irqs.getLast?.getD dev.irq_value := by
  induction irqs with
  | nil => intro dev; rfl
  | cons v vs ih =>
    intro dev
    have h : run_irqs dev (v :: vs) = run_irqs (edu_irq_handler dev v).1 vs := rfl
    rw [h, ih]
    cases vs with
    | nil => rfl
    | cons x xs =>
      rw [List.getLast?_cons_cons, List.getLast?_eq_getLast _ (List.cons_ne_nil x xs)]
      rfl

theorem do_dma_wide (cap : Nat) (dev : edu_device) (len : Nat) (to_device : Bool)
    (first : Nat) (wakes : List Wake) (h0 : 0 < len) (hcap : len ≤ cap)
    (hbus : dev.dma_bus_addr > 2 ^ 32 - 1) :
    do_dma cap dev len to_device first wakes = ⟨some (-EOPNOTSUPP), [], dev⟩ := by
  have h1 : ¬ (len = 0 ∨ len > cap) := by omega
  unfold do_dma
  rw [if_neg h1, if_pos hbus]

/-! ## Claims about `do_dma` -/

/-- C1: for either direction and any bus address, `do_dma` with `len = 0` or
`len > EDU_DMA_BUF_SIZE` returns `-EINVAL` (-22) and issues no register access;
with `len = EDU_DMA_BUF_SIZE` (a non-empty buffer), a bus address that fits in
32 bits and a wait that ends without cancellation it returns 0. -/
theorem C1_do_dma_length_bounds (cap : Nat) (dev : edu_device) (to_device : Bool)
    (first : Nat) (wakes : List Wake) :
    (∀ len, len = 0 ∨ len > cap →
      do_dma cap dev len to_device first wakes = ⟨some (-22), [], dev⟩) ∧
    (∀ earlier last, 0 < cap → dev.dma_bus_addr < 2 ^ 32 →
      Completes is_doing_dma first wakes earlier last →
      (do_dma cap dev cap to_device first wakes).ret = some 0) := by
  constructor
  · intro len h
    simp [do_dma, h, EINVAL]
  · intro earlier last hcap hbus hw
    have hv := (do_dma_valid cap dev cap to_device first wakes hcap (le_refl cap) hbus).1
    rw [hv, (wait_event_completes EDU_ADDR_DMA_CMD is_doing_dma dev first wakes earlier last hw).1]
    simp

/-- Instance of C1 with a 4096-byte buffer: lengths 0 and 4097 are refused,
length 4096 goes through once the device clears `START_XFER`. -/
theorem C1_do_dma_length_bounds_witness :
    do_dma 4096 sample_dev 0 true 5 dma_wakes = ⟨some (-22), [], sample_dev⟩ ∧
    do_dma 4096 sample_dev 4097 true 5 dma_wakes = ⟨some (-22), [], sample_dev⟩ ∧
    Completes is_doing_dma 5 dma_wakes
      [{ irqs := [], signal := false, reg := 5 }, { irqs := [], signal := false, reg := 5 }]
      { irqs := [0x100], signal := false, reg := 4 } ∧
    (do_dma 4096 sample_dev 4096 true 5 dma_wakes).ret = some 0 :=
  have hc : Completes is_doing_dma 5 dma_wakes
      [{ irqs := [], signal := false, reg := 5 }, { irqs := [], signal := false, reg := 5 }]
      { irqs := [0x100], signal := false, reg := 4 } :=
    ⟨⟨[], rfl⟩, by decide, by decide⟩
  ⟨(C1_do_dma_length_bounds 4096 sample_dev true 5 dma_wakes).1 0 (Or.inl rfl),
   (C1_do_dma_length_bounds 4096 sample_dev true 5 dma_wakes).1 4097 (Or.inr (by decide)),
   hc,
   (C1_do_dma_length_bounds 4096 sample_dev true 5 dma_wakes).2 _ _ (by decide) (by decide) hc⟩

/-- C2: for a valid request (`0 < len <= EDU_DMA_BUF_SIZE`, bus address below
`2 ^ 32`) the accesses of `do_dma` are the four writes `DMA_SRC (0x80) := src`,
`DMA_DST (0x88) := dst`, `DMA_XFER (0x90) := len`, `DMA_CMD (0x98) := cmd`, in
this order, followed only by the reads of `DMA_CMD` made by the wait; to-device
gives `src` = bus address, `dst = 0x40000`, `cmd = 5`, from-device gives
`src = 0x40000`, `dst` = bus address, `cmd = 7`. -/
theorem C2_do_dma_register_order (cap : Nat) (dev : edu_device) (len : Nat) (to_device : Bool)
    (first : Nat) (wakes : List Wake) (h0 : 0 < len) (hcap : len ≤ cap)
    (hbus : dev.dma_bus_addr < 2 ^ 32) :
    (∃ k, k ≤ wakes.length ∧
      (do_dma cap dev len to_device first wakes).trace =
        [Event.iowrite32 (if to_device then dev.dma_bus_addr else 0x40000) 0x80,
         Event.iowrite32 (if to_device then 0x40000 else dev.dma_bus_addr) 0x88,
         Event.iowrite32 len 0x90,
         Event.iowrite32 (if to_device then 5 else 7) 0x98] ++
        Event.ioread32 0x98 first :: polls 0x98 (wakes.take k)) ∧
    EDU_DMA_CMD_START_XFER ||| EDU_DMA_CMD_RAM_TO_DEVICE ||| EDU_DMA_CMD_RAISE_IRQ = 5 ∧
    EDU_DMA_CMD_START_XFER ||| EDU_DMA_CMD_DEVICE_TO_RAM ||| EDU_DMA_CMD_RAISE_IRQ = 7 := by
  refine ⟨?_, by decide, by decide⟩
  obtain ⟨k, hk, ht, _⟩ := wait_event_reads EDU_ADDR_DMA_CMD is_doing_dma dev first wakes
  refine ⟨k, hk, ?_⟩
  rw [(do_dma_valid cap dev len to_device first wakes h0 hcap hbus).2, ht]
  rfl

/-- Instance of C2: a 64-byte transfer from the device into the buffer at bus
address `0x1000`. -/
theorem C2_do_dma_register_order_witness :
    (∃ k, k ≤ dma_wakes.length ∧
      (do_dma 4096 sample_dev 64 false 5 dma_wakes).trace =
        [Event.iowrite32 0x40000 0x80, Event.iowrite32 0x1000 0x88,
         Event.iowrite32 64 0x90, Event.iowrite32 7 0x98] ++
        Event.ioread32 0x98 5 :: polls 0x98 (dma_wakes.take k)) :=
  (C2_do_dma_register_order 4096 sample_dev 64 false 5 dma_wakes
    (by decide) (by decide) (by decide)).1

/-- C3: for either direction and a length with `0 < len <= EDU_DMA_BUF_SIZE`, a
bus address above `2 ^ 32 - 1` makes `do_dma` return `-EOPNOTSUPP` (-95) with
no register access at all. -/
theorem C3_do_dma_wide_address (cap : Nat) (dev : edu_device) (len : Nat) (to_device : Bool)
    (first : Nat) (wakes : List Wake) (h0 : 0 < len) (hcap : len ≤ cap)
    (hbus : dev.dma_bus_addr > 2 ^ 32 - 1) :
    do_dma cap dev len to_device first wakes = ⟨some (-95), [], dev⟩ :=
  do_dma_wide cap dev len to_device first wakes h0 hcap hbus

/-- Instance of C3: a buffer at bus address `2 ^ 32`. -/
theorem C3_do_dma_wide_address_witness :
    do_dma 4096 { sample_dev with dma_bus_addr := 2 ^ 32 } 64 true 5 dma_wakes =
      ⟨some (-95), [], { sample_dev with dma_bus_addr := 2 ^ 32 }⟩ :=
  C3_do_dma_wide_address 4096 { sample_dev with dma_bus_addr := 2 ^ 32 } 64 true 5 dma_wakes
    (by decide) (by decide) (by decide)

/-! ## Claim about the interrupt handler -/

/-- C4: for every device structure and every value `v` the device returns for
`IRQ_STATUS`, `edu_irq_handler` reads `IRQ_STATUS` (0x24) once, writes `v` to
`IRQ_ACK` (0x64) once, stores `v` in `irq_value`, wakes the wait queue, in this
order and with no other access, returns `IRQ_HANDLED`, and leaves every other
field of the device structure unchanged. -/
theorem C4_edu_irq_handler (dev : edu_device) (v : Nat) :
    (edu_irq_handler dev v).2.1 =
      [Event.ioread32 0x24 v, Event.iowrite32 v 0x64, Event.store_irq_value v,
       Event.wake_up_interruptible] ∧
    (edu_irq_handler dev v).2.2 = IRQ_HANDLED ∧
    (edu_irq_handler dev v).1.irq_value = v ∧
    (edu_irq_handler dev v).1.registered_irq_handler = dev.registered_irq_handler ∧
    (edu_irq_handler dev v).1.added_cdev = dev.added_cdev ∧
    (edu_irq_handler dev v).1.iomem = dev.iomem ∧
    (edu_irq_handler dev v).1.irq = dev.irq ∧
    (edu_irq_handler dev v).1.dma_bus_addr = dev.dma_bus_addr ∧
    (edu_irq_handler dev v).1.dma_virt_addr = dev.dma_virt_addr :=
  ⟨rfl, rfl, rfl, rfl, rfl, rfl, rfl, rfl, rfl⟩

/-! ## Claims about `ioctl_factorial` -/

/-- C5: for every input `n`, `ioctl_factorial` writes `0x80` to `STATUS` (0x20),
then `n` to `FACTORIAL` (0x08), then waits, issuing no further write; when the
wait ends without cancellation the call reads `FACTORIAL` right after a read of
`STATUS` that showed the `COMPUTING` bit (0x01) clear, hands the value read to
`put_user` and returns the result of `put_user`. -/
theorem C5_ioctl_factorial_sequence (dev : edu_device) (n first : Nat) (wakes : List Wake)
    (result : Nat) (put_ret : Int) :
    (∃ rest, (ioctl_factorial dev (some n) first wakes result put_ret).trace =
        [Event.iowrite32 0x80 0x20, Event.iowrite32 n 0x08, Event.ioread32 0x20 first] ++ rest ∧
        ∀ e ∈ rest, ∀ v a, e ≠ Event.iowrite32 v a) ∧
    (∀ earlier last, Completes is_computing_factorial first wakes earlier last →
      (ioctl_factorial dev (some n) first wakes result put_ret).ret = some put_ret ∧
      (ioctl_factorial dev (some n) first wakes result put_ret).trace =
        [Event.iowrite32 0x80 0x20, Event.iowrite32 n 0x08] ++ polls 0x20 earlier ++
        [Event.ioread32 0x20 last.reg, Event.ioread32 0x08 result, Event.put_user result] ∧
      last.reg &&& 0x01 = 0) := by
  have hrun := ioctl_factorial_run dev n first wakes result put_ret
  constructor
  · obtain ⟨k, _, ht, _⟩ :=
      wait_event_reads EDU_ADDR_STATUS is_computing_factorial dev first wakes
    refine ⟨polls 0x20 (wakes.take k) ++
      (if (wait_event_interruptible EDU_ADDR_STATUS is_computing_factorial dev first wakes).ret
            = some 0
        then [Event.ioread32 0x08 result, Event.put_user result] else []), ?_, ?_⟩
    · rw [hrun.2, ht]
      simp [EDU_ADDR_STATUS]
    · intro e he v a
      rcases List.mem_append.1 he with h | h
      · exact polls_not_write _ _ e h v a
      · split at h <;> simp at h
        rcases h with rfl | rfl <;> simp
  · intro earlier last hw
    have hc := wait_event_completes EDU_ADDR_STATUS is_computing_factorial dev first wakes
      earlier last hw
    refine ⟨?_, ?_, (is_computing_factorial_false last.reg).1 hw.2.2⟩
    · rw [hrun.1, hc.1]
      simp
    · rw [hrun.2, hc.1, hc.2]
      simp [polls, EDU_ADDR_STATUS]

/-- Instance of C5: factorial of 5, the device answering 120. -/
theorem C5_ioctl_factorial_sequence_witness :
    Completes is_computing_factorial 0x81 factorial_wakes
      [{ irqs := [], signal := false, reg := 0x81 }, { irqs := [], signal := false, reg := 0x81 }]
      { irqs := [1], signal := false, reg := 0x80 } ∧
    (ioctl_factorial sample_dev (some 5) 0x81 factorial_wakes 120 0).ret = some 0 ∧
    (ioctl_factorial sample_dev (some 5) 0x81 factorial_wakes 120 0).trace =
      [Event.iowrite32 0x80 0x20, Event.iowrite32 5 0x08] ++
      polls 0x20 [{ irqs := [], signal := false, reg := 0x81 },
        { irqs := [], signal := false, reg := 0x81 }] ++
      [Event.ioread32 0x20 0x80, Event.ioread32 0x08 120, Event.put_user 120] :=
  have hc : Completes is_computing_factorial 0x81 factorial_wakes
      [{ irqs := [], signal := false, reg := 0x81 }, { irqs := [], signal := false, reg := 0x81 }]
      { irqs := [1], signal := false, reg := 0x80 } :=
    ⟨⟨[], rfl⟩, by decide, by decide⟩
  have h := (C5_ioctl_factorial_sequence sample_dev 5 0x81 factorial_wakes 120 0).2 _ _ hc
  ⟨hc, h.1, h.2.1⟩

/-- C6: for every input `n`, when the wait of `ioctl_factorial` is cancelled (a
signal is pending at a pass that still reads `COMPUTING` set, no earlier read
having shown it clear), the call returns `-ERESTARTSYS` (-512) and its accesses
are the two writes `STATUS := 0x80`, `FACTORIAL := n` followed by reads of
`STATUS` only: no read of `FACTORIAL`, no `put_user`, no further write. -/
theorem C6_ioctl_factorial_cancelled (dev : edu_device) (n first : Nat) (wakes : List Wake)
    (result : Nat) (put_ret : Int) (earlier : List Wake) (last : Wake)
    (h : Cancelled is_computing_factorial first wakes earlier last) :
    (ioctl_factorial dev (some n) first wakes result put_ret).ret = some (-512) ∧
    (ioctl_factorial dev (some n) first wakes result put_ret).trace =
      [Event.iowrite32 0x80 0x20, Event.iowrite32 n 0x08] ++ polls 0x20 (earlier ++ [last]) ∧
    (∀ v, Event.ioread32 0x08 v ∉
      (ioctl_factorial dev (some n) first wakes result put_ret).trace) ∧
    (∀ v, Event.put_user v ∉
      (ioctl_factorial dev (some n) first wakes result put_ret).trace) := by
  have hrun := ioctl_factorial_run dev n first wakes result put_ret
  have hc := wait_event_cancelled EDU_ADDR_STATUS is_computing_factorial dev first wakes
    earlier last h
  have ht : (ioctl_factorial dev (some n) first wakes result put_ret).trace =
      [Event.iowrite32 0x80 0x20, Event.iowrite32 n 0x08] ++ polls 0x20 (earlier ++ [last]) := by
    rw [hrun.2, hc.1, hc.2]
    simp [ERESTARTSYS, EDU_ADDR_STATUS]
  refine ⟨?_, ht, ?_, ?_⟩
  · rw [hrun.1, hc.1]
    simp [ERESTARTSYS]
  · intro v
    rw [ht]
    simp [polls]
  · intro v
    rw [ht]
    simp [polls]

/-- Instance of C6: a signal arrives while the device is still computing. -/
theorem C6_ioctl_factorial_cancelled_witness :
    Cancelled is_computing_factorial 0x81 signal_wakes
      [{ irqs := [], signal := false, reg := 0x81 }, { irqs := [], signal := false, reg := 0x81 }]
      { irqs := [], signal := true, reg := 0x81 } ∧
    (ioctl_factorial sample_dev (some 5) 0x81 signal_wakes 120 0).ret = some (-512) ∧
    (∀ v, Event.ioread32 0x08 v ∉
      (ioctl_factorial sample_dev (some 5) 0x81 signal_wakes 120 0).trace) :=
  have hc : Cancelled is_computing_factorial 0x81 signal_wakes
      [{ irqs := [], signal := false, reg := 0x81 }, { irqs := [], signal := false, reg := 0x81 }]
      { irqs := [], signal := true, reg := 0x81 } :=
    ⟨⟨[], rfl⟩, by decide, by decide, rfl⟩
  have h := C6_ioctl_factorial_cancelled sample_dev 5 0x81 signal_wakes 120 0 _ _ hc
  ⟨hc, h.1, h.2.2.1⟩

/-! ## Claim about `edu_mmap` -/

/-- C7: for every mapping request, with `len = vm_end - vm_start`, `edu_mmap`
returns `-EINVAL` (-22) and calls no mapping primitive when the page offset is
non-zero or `len > EDU_DMA_BUF_SIZE`; otherwise it makes the single call
`vm_iomap_memory(vma, __pa(dev->dma_virt_addr), len)` and returns its result. -/
theorem C7_edu_mmap_bounds (cap : Nat) (__pa : Nat → Nat) (dev : edu_device)
    (vm_start vm_end vm_pgoff : Nat) (iomap_ret : Int) :
    (vm_pgoff ≠ 0 ∨ vma_len vm_start vm_end > cap →
      edu_mmap cap __pa dev vm_start vm_end vm_pgoff iomap_ret = ⟨some (-22), [], dev⟩) ∧
    (vm_pgoff = 0 → vma_len vm_start vm_end ≤ cap →
      edu_mmap cap __pa dev vm_start vm_end vm_pgoff iomap_ret =
        ⟨some iomap_ret,
          [Event.vm_iomap_memory (__pa dev.dma_virt_addr) (vma_len vm_start vm_end)], dev⟩) ∧
    (vm_start ≤ vm_end → vm_end < 2 ^ 64 → vma_len vm_start vm_end = vm_end - vm_start) := by
  refine ⟨?_, ?_, ?_⟩
  · intro h
    by_cases hl : vma_len vm_start vm_end > cap
    · simp [edu_mmap, hl, EINVAL]
    · have hp : vm_pgoff ≠ 0 := by
        rcases h with h | h
        · exact h
        · exact absurd h hl
      simp [edu_mmap, hl, hp, EINVAL]
  · intro hp hl
    have hl2 : ¬ vma_len vm_start vm_end > cap := by omega
    simp [edu_mmap, hl2, hp]
  · intro h1 h2
    unfold vma_len
    omega

/-- Instance of C7 with a 4096-byte buffer and an identity `__pa`: a mapping at
page offset 1 and a two-page mapping are refused, a one-page mapping at offset
0 goes to `vm_iomap_memory`. -/
theorem C7_edu_mmap_bounds_witness :
    edu_mmap 4096 id sample_dev 0x7000 0x8000 1 0 = ⟨some (-22), [], sample_dev⟩ ∧
    edu_mmap 4096 id sample_dev 0x7000 0x9000 0 0 = ⟨some (-22), [], sample_dev⟩ ∧
    edu_mmap 4096 id sample_dev 0x7000 0x8000 0 0 =
      ⟨some 0, [Event.vm_iomap_memory (id sample_dev.dma_virt_addr) (vma_len 0x7000 0x8000)],
        sample_dev⟩ ∧
    vma_len 0x7000 0x8000 = 0x8000 - 0x7000 :=
  ⟨(C7_edu_mmap_bounds 4096 id sample_dev 0x7000 0x8000 1 0).1 (Or.inl (by decide)),
   (C7_edu_mmap_bounds 4096 id sample_dev 0x7000 0x9000 0 0).1 (Or.inr (by decide)),
   (C7_edu_mmap_bounds 4096 id sample_dev 0x7000 0x8000 0 0).2.1 rfl (by decide),
   (C7_edu_mmap_bounds 4096 id sample_dev 0x7000 0x8000 0 0).2.2 (by decide) (by decide)⟩

/-! ## Claim about `ioctl_wait_irq` -/

/-- C8 does not hold as stated: an interrupt with status 7 is handled before
`ioctl_wait_irq` is called; the caller then sleeps and is made runnable with no
store into `irq_value` since the wait began and no signal pending; the call
returns 0 after handing the old value 7 to `put_user`, although no
`edu_irq_handler` call captured anything after the wait began. -/
theorem C8_stale_value_counterexample :
    (edu_irq_handler sample_dev 7).1.irq_value = 7 ∧
    (ioctl_wait_irq (edu_irq_handler sample_dev 7).1
        (some { irqs := [], signal := false }) 0).ret = some 0 ∧
    (ioctl_wait_irq (edu_irq_handler sample_dev 7).1
        (some { irqs := [], signal := false }) 0).trace = [Event.put_user 7] := by
  decide

/-- C8, amended: once its single `schedule()` has returned, `ioctl_wait_irq`
returns `-ERESTARTSYS` (-512) and hands nothing over when a signal is pending;
otherwise it hands over the content of `irq_value` at that moment and returns
the result of `put_user`: the value is the one captured by the most recent
`edu_irq_handler` call since the wait began when there was one, and the value
the cell held when the wait began when there was none. -/
theorem C8_ioctl_wait_irq_value (dev : edu_device) (s : Sleep) (put_ret : Int) :
    (s.signal = true →
      (ioctl_wait_irq dev (some s) put_ret).ret = some (-512) ∧
      (ioctl_wait_irq dev (some s) put_ret).trace = []) ∧
    (s.signal = false →
      (ioctl_wait_irq dev (some s) put_ret).ret = some put_ret ∧
      (ioctl_wait_irq dev (some s) put_ret).trace =
        [Event.put_user (s.irqs.getLast?.getD dev.irq_value)]) ∧
    (∀ v earlier, s.signal = false → s.irqs = earlier ++ [v] →
      (ioctl_wait_irq dev (some s) put_ret).trace = [Event.put_user v]) ∧
    (s.signal = false → s.irqs = [] →
      (ioctl_wait_irq dev (some s) put_ret).trace = [Event.put_user dev.irq_value]) := by
  have hval := run_irqs_irq_value s.irqs dev
  refine ⟨?_, ?_, ?_, ?_⟩
  · intro hs
    simp [ioctl_wait_irq, hs, ERESTARTSYS]
  · intro hs
    simp [ioctl_wait_irq, hs, hval]
  · intro v earlier hs hi
    rw [hi] at hval
    simp [ioctl_wait_irq, hs, hval, hi]
  · intro hs hi
    rw [hi] at hval
    simp [ioctl_wait_irq, hs, hval, hi]

/-- Instance of the amended C8: two interrupts, with status 1 then `0x100`,
arrive during the wait and the caller receives `0x100`; a signal instead makes
the call return `-ERESTARTSYS`. -/
theorem C8_ioctl_wait_irq_value_witness :
    (ioctl_wait_irq sample_dev (some { irqs := [1, 0x100], signal := false }) 0).trace =
      [Event.put_user 0x100] ∧
    (ioctl_wait_irq sample_dev (some { irqs := [1], signal := true }) 0).ret = some (-512) :=
  ⟨(C8_ioctl_wait_irq_value sample_dev { irqs := [1, 0x100], signal := false } 0).2.2.1
      0x100 [1] rfl rfl,
   ((C8_ioctl_wait_irq_value sample_dev { irqs := [1], signal := true } 0).1 rfl).1⟩

/-! ## Claim about `edu_pci_probe` -/

end Edu
